import Mathlib

/-!
# Settings page and monitor page of the weather station (`src/web_pages.h`)

The repository's single source file holds two HTML pages with their scripts.
The scripts are embedded here as pure functions over an explicit page state:
the `cfg` object, the form inputs, the screen label and the message line.
JavaScript arrays are lists, `null`/`undefined` strings are explicit
constructors, numbers are `NaN`, the infinities or `(-1)^neg * mant * 2^exp`,
thrown errors are `Except` values, and the answers of the device (`fetch`) are
inputs of the operations that wait for them.
-/

namespace WebPages

/-! ## JavaScript values used by the scripts -/

/-- A value that the scripts treat as text: a string, `null`, or `undefined`
(a property that is absent from the JSON document). -/
inductive JsStr where
  | null
  | undefined
  | str (s : String)
  deriving DecidableEq, Repr

/-- The expression `x || d` for a text value `x` and a string `d`:
`null`, `undefined` and the empty string are falsy. -/
def JsStr.orElse (x : JsStr) (d : String) : String :=
  match x with
  | .null => d
  | .undefined => d
  | .str s => if s = "" then d else s

/-- The method call `s.replaceAll(pat, rep)` for a pattern of one character and a
replacement without `$` patterns: every occurrence of `pat` becomes `rep`. -/
def replaceAll (s : String) (pat : Char) (rep : String) : String :=
  String.mk (s.data.flatMap fun c => if c = pat then rep.data else [c])

/-! ## JavaScript numbers -/

/-- A JavaScript number: `NaN`, the two infinities, or a finite binary
floating-point value `(-1)^neg * mant * 2^exp`. -/
inductive JsNumber where
  | nan
  | posInf
  | negInf
  | finite (neg : Bool) (mant : Nat) (exp : Int)
  deriving DecidableEq, Repr

/-- The exponential form that `Number::toString` gives a number of `10^21` or
more: the digits of `s`, a point after the first when there are several, then
`e+` and the exponent `n - 1`. -/
def expDigits (s n : Nat) : List Char :=
  let ds := Nat.toDigits 10 s
  let e := Nat.toDigits 10 (n - 1)
  if ds.length = 1 then ds ++ 'e' :: '+' :: e
  else ds.take 1 ++ '.' :: (ds.drop 1 ++ 'e' :: '+' :: e)

/-- The text of an integer-valued number `n` in a template literal
(`Number::toString`): its decimal digits below `10^21`, the exponential form
from there on.  The parameter `shortest` is the engine's choice of the shortest
decimal significand and exponent that read back as the number. -/
def numberText (shortest : Nat → Int → Nat × Nat) (n : Int) : String :=
  if n.natAbs < 10 ^ 21 then toString n
  else
    String.mk ((if n < 0 then ['-'] else []) ++
      expDigits (shortest n.natAbs 0).1 (shortest n.natAbs 0).2)

/-- Whether the number `x`, as `JSON.stringify` writes it into a document, is a
number of at least `m`.  `NaN` and the infinities are written as `null`, which
is no number; a finite `x` is written with its value `(-1)^neg * mant * 2^exp`. -/
def jsonAtLeast (x : JsNumber) (m : Nat) : Bool :=
  match x with
  | .finite neg mant exp =>
    if neg = true ∧ mant ≠ 0 then false
    else if 0 ≤ exp then decide (m ≤ mant * 2 ^ exp.toNat)
    else decide (m * 2 ^ (-exp).toNat ≤ mant)
  | _ => false

/-! ## Data model of `cfg` -/

/-- One entry of `cfg.wifi`. -/
structure WifiCredential where
  ssid : JsStr
  pass : JsStr
  deriving DecidableEq, Repr

/-- One entry of `cfg.buttons`. -/
structure ButtonConfig where
  pin : Int
  switchScreen : Bool
  url : JsStr
  deriving DecidableEq, Repr

/-- The object `cfg.log`. -/
structure LogConfig where
  shortMs : JsNumber
  longMs : JsNumber
  postUrl : JsStr
  insecureTls : Bool
  deriving DecidableEq, Repr

/-- The object `cfg`, as parsed from `GET /api/config`. -/
structure RuntimeConfig where
  sampleMs : JsNumber
  screenMs : JsNumber
  autoswitchScreens : Bool
  screenIdx : Nat
  wifi : List WifiCredential
  log : LogConfig
  buttons : List ButtonConfig
  deriving DecidableEq, Repr

/-! ## WiFi list operations -/

/-- The method call `a.splice(start, deleteCount)` for `0 ≤ start`: the array
without the `deleteCount` elements that begin at `start`. -/
def splice {α : Type} (a : List α) (start deleteCount : Nat) : List α :=
  a.take start ++ a.drop (start + deleteCount)

/-- Function `addWifi()`: `cfg.wifi.push({ssid:"",pass:""})`. -/
def addWifi (wifi : List WifiCredential) : List WifiCredential :=
  wifi ++ [{ ssid := .str "", pass := .str "" }]

/-- Function `delWifi(i)`: `cfg.wifi.splice(i,1)`. -/
def delWifi (wifi : List WifiCredential) (i : Nat) : List WifiCredential :=
  splice wifi i 1

/-- Function `moveWifi(i,dir)`: `const j=i+dir; if(j<0||j>=cfg.wifi.length) return;`
then the three assignments through `tmp`.  The row index `i` is the one that
`renderWifi` wrote into the row, so `cfg.wifi[i]` is an element; for an `i` that
is no row the list is returned as it is. -/
def moveWifi (wifi : List WifiCredential) (i : Nat) (dir : Int) : List WifiCredential :=
  let j : Int := (i : Int) + dir
  if j < 0 ∨ j ≥ (wifi.length : Int) then wifi
  else
    match wifi[i]?, wifi[j.toNat]? with
    | some tmp, some wj => (wifi.set i wj).set j.toNat tmp
    | _, _ => wifi

/-- The handler `onchange="cfg.wifi[i].ssid=this.value"` of row `i`.  When there is
no row `i` the assignment throws a `TypeError` and nothing changes. -/
def editSsid (wifi : List WifiCredential) (i : Nat) (v : String) : List WifiCredential :=
  match wifi[i]? with
  | some w => wifi.set i { w with ssid := .str v }
  | none => wifi

/-- The handler `onchange="cfg.wifi[i].pass=this.value"` of row `i`. -/
def editPass (wifi : List WifiCredential) (i : Nat) (v : String) : List WifiCredential :=
  match wifi[i]? with
  | some w => wifi.set i { w with pass := .str v }
  | none => wifi

/-! ## Button handlers -/

/-- The handler `onchange="cfg.buttons[i].switchScreen=this.checked"` of button `i`. -/
def editSwitchScreen (buttons : List ButtonConfig) (i : Nat) (checked : Bool) :
    List ButtonConfig :=
  match buttons[i]? with
  | some b => buttons.set i { b with switchScreen := checked }
  | none => buttons

/-- The handler `onchange="cfg.buttons[i].url=this.value"` of button `i`. -/
def editUrl (buttons : List ButtonConfig) (i : Nat) (v : String) : List ButtonConfig :=
  match buttons[i]? with
  | some b => buttons.set i { b with url := .str v }
  | none => buttons

/-! ## Generated HTML -/

/-- The expression `(s||"").replaceAll('"','&quot;')` that `wifiRowHtml` and
`renderButtons` write between the quotes of `value="..."`. -/
def valueAttr (s : JsStr) : String :=
  replaceAll (s.orElse "") '"' "&quot;"

/-- Function `wifiRowHtml(i,w)`: the table row of credential `w` at index `i`, an
array index, whose text is its decimal digits. -/
def wifiRowHtml (i : Nat) (w : WifiCredential) : String :=
  "\n        <tr>\n          <td>" ++ toString (i + 1) ++ "</td>\n" ++
  "          <td><input type=\"text\" value=\"" ++ valueAttr w.ssid ++
    "\" onchange=\"cfg.wifi[" ++ toString i ++ "].ssid=this.value\" /></td>\n" ++
  "          <td><input type=\"text\" value=\"" ++ valueAttr w.pass ++
    "\" onchange=\"cfg.wifi[" ++ toString i ++ "].pass=this.value\" /></td>\n" ++
  "          <td>\n" ++
  "            <button onclick=\"moveWifi(" ++ toString i ++ ",-1)\">⬆️</button>\n" ++
  "            <button onclick=\"moveWifi(" ++ toString i ++ ", 1)\">⬇️</button>\n" ++
  "          </td>\n" ++
  "          <td><button onclick=\"delWifi(" ++ toString i ++ ")\">🗑️</button></td>\n" ++
  "        </tr>"

/-- Function `renderWifi()`: `cfg.wifi.map((w,i)=>wifiRowHtml(i,w)).join("")`. -/
def renderWifi (wifi : List WifiCredential) : String :=
  String.join (wifi.enum.map fun iw => wifiRowHtml iw.1 iw.2)

/-- The `innerHTML` that `renderButtons` gives to the box of button `b` at index `i`. -/
def buttonHtml (shortest : Nat → Int → Nat × Nat) (i : Nat) (b : ButtonConfig) : String :=
  "\n          <div style=\"font-weight:650;margin-bottom:6px;\">Button " ++ toString i ++
    " (Pin " ++ numberText shortest b.pin ++ ")</div>\n" ++
  "          <label><input type=\"checkbox\" " ++ (if b.switchScreen then "checked" else "") ++
    " onchange=\"cfg.buttons[" ++ toString i ++
    "].switchScreen=this.checked\"> switch screenIdx</label>\n" ++
  "          <label>URL (optional)</label>\n" ++
  "          <input type=\"text\" value=\"" ++ valueAttr b.url ++
    "\" onchange=\"cfg.buttons[" ++ toString i ++
    "].url=this.value\" placeholder=\"http(s)://...\" />\n        "

/-- Function `renderButtons()`: one box per entry of `cfg.buttons`, in order. -/
def renderButtons (shortest : Nat → Int → Nat × Nat) (buttons : List ButtonConfig) :
    List String :=
  buttons.enum.map fun ib => buttonHtml shortest ib.1 ib.2

/-- The opening of a `value` attribute with a double-quoted value. -/
def valuePat : List Char := "value=\"".data

/-- Where a reader of the HTML text stands: `seek k` has just read the first `k`
characters of `valuePat`; `inside acc` is within a quoted value and has read
the characters `acc`, last first. -/
inductive ScanState where
  | seek (k : Nat)
  | inside (acc : List Char)

/-- The state after reading the character `c` while seeking `valuePat` with `k`
of its characters read: one more when `c` continues the pattern (inside the
value when that completes it), else a fresh start, which `v` begins. -/
def seekStep (k : Nat) (c : Char) : ScanState :=
  if valuePat[k]? = some c then
    if k + 1 = valuePat.length then .inside [] else .seek (k + 1)
  else if c = 'v' then .seek 1
  else .seek 0

/-- The values of the `value="..."` attributes in an HTML text, left to right,
read from state `st`: a value starts after `valuePat` and ends before the next
double quote. -/
def valueAttrsFrom : ScanState → List Char → List (List Char)
  | _, [] => []
  | .seek k, c :: cs => valueAttrsFrom (seekStep k c) cs
  | .inside acc, c :: cs =>
    if c = '"' then acc.reverse :: valueAttrsFrom (.seek 0) cs
    else valueAttrsFrom (.inside (c :: acc)) cs

/-- The state after reading the text `l` from state `st` when no value is read
on the way; `none` when `l` runs into a value. -/
def seekOver : ScanState → List Char → Option ScanState
  | st, [] => some st
  | .seek k, c :: cs => seekOver (seekStep k c) cs
  | .inside _, _ :: _ => none

/-- The values of the `value="..."` attributes in an HTML text, left to right. -/
def valueAttrs (html : String) : List String :=
  (valueAttrsFrom (.seek 0) html.data).map String.mk

/-! ## Page state -/

/-- The `value` of an `<input type="number">`: the empty string, or a non-empty
text.  For a non-empty text, `x` is the number that `Number(value)` converts it
to: the double nearest to the numeral typed, whatever the numeral (integer or
not, small or large).  The `min` attribute of the input marks a smaller numeral
as invalid for form submission; it does not alter `value`, and the page has no
form and never asks for validity. -/
inductive NumInput where
  | empty
  | numeral (x : JsNumber)
  deriving DecidableEq, Repr

/-- The expression `Number(value||d)`: the empty string is falsy and gives the
default `d`; every non-empty text, `"0"` included, is truthy and gives the
number it converts to. -/
def NumInput.numberOr (v : NumInput) (d : Nat) : JsNumber :=
  match v with
  | .empty => .finite false d 0
  | .numeral x => x

/-- The assignment `input.value = x` of a number `x` to a number input: the text
of a finite `x` (a zero loses its sign) reads back as `x`; the texts `NaN`,
`Infinity` and `-Infinity` are no numerals and leave the input empty. -/
def NumInput.ofNumber (x : JsNumber) : NumInput :=
  match x with
  | .finite neg mant exp => .numeral (.finite (neg && mant != 0) mant exp)
  | _ => .empty

/-- The form controls of the settings page that `load` fills and `save` reads. -/
structure Form where
  sampleMs : NumInput
  screenMs : NumInput
  autoswitch : Bool
  logShortMs : NumInput
  logLongMs : NumInput
  postUrl : String
  insecureTls : Bool
  deriving DecidableEq, Repr

/-- The state of the settings page: the script variable `cfg`, the form, the
text of `#screenLbl` and the text of `#msg`. -/
structure Page where
  cfg : RuntimeConfig
  form : Form
  screenLbl : String
  msg : String
  deriving DecidableEq, Repr

/-- Function `setMsg(s)`: the text of `#msg` becomes `s`. -/
def setMsg (p : Page) (s : String) : Page :=
  { p with msg := s }

/-- The array literal `["Temp","Hum","Pres"]` of `setScreen`. -/
def screenNames : List String := ["Temp", "Hum", "Pres"]

/-- Function `setScreen(i)`: `cfg.screenIdx=i` and the label `" aktuell: "+["Temp","Hum","Pres"][i]`;
an index outside the array reads `undefined`. -/
def setScreen (p : Page) (i : Nat) : Page :=
  { p with
    cfg := { p.cfg with screenIdx := i }
    screenLbl := " aktuell: " ++ (screenNames[i]?).getD "undefined" }

/-- The three chip buttons below "screenIdx (Startscreen)". -/
inductive Chip where
  | temp
  | hum
  | pres
  deriving DecidableEq, Repr

/-- The text on the chip. -/
def Chip.text : Chip → String
  | .temp => "Temp"
  | .hum => "Hum"
  | .pres => "Pres"

/-- The argument in the chip's `onclick="setScreen(..)"`. -/
def Chip.arg : Chip → Nat
  | .temp => 0
  | .hum => 1
  | .pres => 2

/-- Function `load()` once `GET /api/config` has answered with `c`. -/
def load (c : RuntimeConfig) : Page :=
  setScreen
    { cfg := c
      form :=
        { sampleMs := .ofNumber c.sampleMs
          screenMs := .ofNumber c.screenMs
          autoswitch := c.autoswitchScreens
          logShortMs := .ofNumber c.log.shortMs
          logLongMs := .ofNumber c.log.longMs
          postUrl := c.log.postUrl.orElse ""
          insecureTls := c.log.insecureTls }
      screenLbl := ""
      msg := "" }
    c.screenIdx

/-! ## Talking to the device -/

/-- A thrown JavaScript error object with its `name` and `message`. -/
structure JsError where
  name : String
  message : String
  deriving DecidableEq, Repr

/-- The method `Error.prototype.toString`, which string concatenation with an
error object calls. -/
def JsError.toString (e : JsError) : String :=
  if e.name = "" then e.message
  else if e.message = "" then e.name
  else e.name ++ ": " ++ e.message

/-- The expression `new Error(text)`. -/
def newError (text : String) : JsError :=
  { name := "Error", message := text }

/-- What the script can observe of a `fetch` response `r`: the flag `r.ok` (status
in 200..299), the body `await r.text()`, and the outcome of `await r.json()`. -/
structure Response (α : Type) where
  ok : Bool
  text : String
  json : Except JsError α

/-- The outcome of `await fetch(...)`: a response, or a rejection when no response
arrives. -/
abbrev Fetched (α : Type) := Except JsError (Response α)

/-- Function `postJSON(url,obj)` given the outcome of its `fetch`:
`if(!r.ok) throw new Error(await r.text()); return await r.json();`. -/
def postJSON {α : Type} (f : Fetched α) : Except JsError α :=
  match f with
  | .error e => .error e
  | .ok r => if !r.ok then .error (newError r.text) else r.json

/-- The message `save` shows after a successful POST. -/
def savedMsg : String := "Gespeichert. Runtime ist aktualisiert."

/-- The assignments at the start of `save()`: the object that `postJSON` then
serialises as the body of `POST /api/config`. -/
def saveAssign (p : Page) : RuntimeConfig :=
  { p.cfg with
    sampleMs := p.form.sampleMs.numberOr 300
    screenMs := p.form.screenMs.numberOr 4000
    autoswitchScreens := p.form.autoswitch
    log :=
      { shortMs := p.form.logShortMs.numberOr 5000
        longMs := p.form.logLongMs.numberOr 300000
        postUrl := .str ((JsStr.str p.form.postUrl).orElse "")
        insecureTls := p.form.insecureTls } }

/-- Function `save()`, given the outcome of the `fetch` inside `postJSON`. -/
def save (p : Page) (f : Fetched RuntimeConfig) : Page :=
  let p1 : Page := { p with cfg := saveAssign p }
  match postJSON f with
  | .ok _ => setMsg p1 savedMsg
  | .error e => setMsg p1 ("Fehler: " ++ e.toString)

/-- The JSON object that `POST /api/wifi/reconnect` answers with; an absent `ip`
is `undefined`. -/
structure ReconnectResult where
  ok : Bool
  ip : JsStr
  deriving DecidableEq, Repr

/-- Function `reconnect()`, given the outcome of the `fetch` inside `postJSON`. -/
def reconnect (p : Page) (f : Fetched ReconnectResult) : Page :=
  let p1 := setMsg p "Verbinde..."
  match postJSON f with
  | .ok res => setMsg p1 (if res.ok then "OK: " ++ res.ip.orElse "-" else "FAIL")
  | .error e => setMsg p1 ("Fehler: " ++ e.toString)

/-! ## Operations of the settings page -/

/-- One user action on the loaded settings page, with the device's answer for
the two actions that wait for one. -/
inductive Op where
  | chip (c : Chip)
  | addWifi
  | delWifi (i : Nat)
  | moveWifi (i : Nat) (dir : Int)
  | editSsid (i : Nat) (v : String)
  | editPass (i : Nat) (v : String)
  | editSwitchScreen (i : Nat) (checked : Bool)
  | editUrl (i : Nat) (v : String)
  | typeSampleMs (v : NumInput)
  | typeScreenMs (v : NumInput)
  | typeLogShortMs (v : NumInput)
  | typeLogLongMs (v : NumInput)
  | typePostUrl (v : String)
  | checkAutoswitch (b : Bool)
  | checkInsecureTls (b : Bool)
  | save (f : Fetched RuntimeConfig)
  | reconnect (f : Fetched ReconnectResult)

/-- The effect of one action on the page. -/
def step (p : Page) : Op → Page
  | .chip c => setScreen p c.arg
  | .addWifi => { p with cfg := { p.cfg with wifi := addWifi p.cfg.wifi } }
  | .delWifi i => { p with cfg := { p.cfg with wifi := delWifi p.cfg.wifi i } }
  | .moveWifi i dir => { p with cfg := { p.cfg with wifi := moveWifi p.cfg.wifi i dir } }
  | .editSsid i v => { p with cfg := { p.cfg with wifi := editSsid p.cfg.wifi i v } }
  | .editPass i v => { p with cfg := { p.cfg with wifi := editPass p.cfg.wifi i v } }
  | .editSwitchScreen i b =>
      { p with cfg := { p.cfg with buttons := editSwitchScreen p.cfg.buttons i b } }
  | .editUrl i v => { p with cfg := { p.cfg with buttons := editUrl p.cfg.buttons i v } }
  | .typeSampleMs v => { p with form := { p.form with sampleMs := v } }
  | .typeScreenMs v => { p with form := { p.form with screenMs := v } }
  | .typeLogShortMs v => { p with form := { p.form with logShortMs := v } }
  | .typeLogLongMs v => { p with form := { p.form with logLongMs := v } }
  | .typePostUrl v => { p with form := { p.form with postUrl := v } }
  | .checkAutoswitch b => { p with form := { p.form with autoswitch := b } }
  | .checkInsecureTls b => { p with form := { p.form with insecureTls := b } }
  | .save f => save p f
  | .reconnect f => reconnect p f

/-- The page after a sequence of actions, first action first. -/
def run (p : Page) (ops : List Op) : Page :=
  ops.foldl step p

/-- The pins of the buttons, in order. -/
def pins (c : RuntimeConfig) : List Int :=
  c.buttons.map ButtonConfig.pin

/-- A WiFi reordering request `moveWifi(i,dir)` as the rendered rows issue it. -/
structure Move where
  i : Nat
  dir : Int

/-- The WiFi list after a sequence of `moveWifi` calls, first call first. -/
def applyMoves (wifi : List WifiCredential) : List Move → List WifiCredential
  | [] => wifi
  | m :: ms => applyMoves (moveWifi wifi m.i m.dir) ms

/-- Every call of the sequence names a row of the list as it is at that call,
and a `dir` of `-1` or `1`. -/
def validMoves (wifi : List WifiCredential) : List Move → Bool
  | [] => true
  | m :: ms =>
    decide (m.i < wifi.length ∧ (m.dir = -1 ∨ m.dir = 1)) &&
      validMoves (moveWifi wifi m.i m.dir) ms

/-! ## Monitor page: `fmt` -/

/-- A value that `fmt` receives for a reading: `null`, `undefined`, or a number. -/
inductive JsVal where
  | null
  | undefined
  | num (x : JsNumber)
  deriving DecidableEq, Repr

/-- The test `mant * 2^exp ≥ 10^21` of `toFixed`. -/
def atLeast1e21 (mant : Nat) (exp : Int) : Bool :=
  if 0 ≤ exp then decide (10 ^ 21 ≤ mant * 2 ^ exp.toNat)
  else decide (10 ^ 21 * 2 ^ (-exp).toNat ≤ mant)

/-- The integer `n` for which `n / 10^f - mant * 2^exp` is as close to zero as
possible, the larger one when two are equally close. -/
def roundScaled (mant : Nat) (exp : Int) (f : Nat) : Nat :=
  if 0 ≤ exp then mant * 2 ^ exp.toNat * 10 ^ f
  else (2 * mant * 10 ^ f + 2 ^ (-exp).toNat) / (2 * 2 ^ (-exp).toNat)

/-- The decimal digits of `n` with a point before the last `f` of them, padded
with zeros on the left to at least `f + 1` digits (no point when `f = 0`). -/
def fixedDigits (n f : Nat) : List Char :=
  let m := Nat.toDigits 10 n
  if f = 0 then m
  else
    let m1 := if m.length ≤ f then List.replicate (f + 1 - m.length) '0' ++ m else m
    let k := m1.length
    m1.take (k - f) ++ '.' :: m1.drop (k - f)

/-- The method `Number.prototype.toFixed(f)` of ECMA-262.  The parameter
`shortest` is the engine's choice of the shortest decimal significand `s` and
decimal exponent `n` that read back as the number `mant * 2^exp`; it is used
only for numbers of `10^21` or more. -/
def toFixed (shortest : Nat → Int → Nat × Nat) (x : JsNumber) (f : Nat) :
    Except JsError String :=
  if 100 < f then
    .error { name := "RangeError", message := "toFixed() digits argument must be between 0 and 100" }
  else
    match x with
    | .nan => .ok "NaN"
    | .posInf => .ok "Infinity"
    | .negInf => .ok "-Infinity"
    | .finite neg mant exp =>
      let sign : List Char := if neg = true ∧ mant ≠ 0 then ['-'] else []
      let m : List Char :=
        if atLeast1e21 mant exp then expDigits (shortest mant exp).1 (shortest mant exp).2
        else fixedDigits (roundScaled mant exp f) f
      .ok (String.mk (sign ++ m))

/-- Function `fmt(v,d=2)`:
`if(v===null||v===undefined||Number.isNaN(v)) return "-"; return Number(v).toFixed(d);`. -/
def fmt (shortest : Nat → Int → Nat × Nat) (v : JsVal) (d : Nat) : Except JsError String :=
  match v with
  | .null => .ok "-"
  | .undefined => .ok "-"
  | .num x => if x = .nan then .ok "-" else toFixed shortest x d

/-- The answer of `GET /api/state` as far as `refreshState` reads the readings. -/
structure StateDoc where
  temp : JsVal
  hum : JsVal
  pres : JsVal

/-- The three reading texts that `refreshState()` writes into `#t`, `#h`, `#p`. -/
def refreshState (shortest : Nat → Int → Nat × Nat) (st : StateDoc) :
    Except JsError (String × String × String) := do
  let t ← fmt shortest st.temp 2
  let h ← fmt shortest st.hum 2
  let p ← fmt shortest st.pres 2
  pure (t ++ " C", h ++ " %", p ++ " hPa")

/-- Spec wording "fixed-decimal rendering with `d` decimals", as a shape of the
text: an optional minus sign, at least one digit, and, when `d > 0`, a point
followed by exactly `d` digits; nothing else. -/
def isFixedDecimal (s : List Char) (d : Nat) : Bool :=
  let body := match s with
    | '-' :: r => r
    | r => r
  let ip := body.takeWhile Char.isDigit
  let rest := body.dropWhile Char.isDigit
  !ip.isEmpty &&
    (if d = 0 then rest.isEmpty
     else match rest with
      | '.' :: fp => fp.length == d && fp.all Char.isDigit
      | _ => false)

/-- The shortest digits of the number `10^21`: significand `1`, decimal exponent
`n = 22`. -/
def shortestOf1e21 : Nat → Int → Nat × Nat :=
  fun _ _ => (1, 22)

/-- The label names the screen of `cfg.screenIdx`. -/
def labelMatches (p : Page) : Prop :=
  p.screenLbl = " aktuell: " ++ (screenNames[p.cfg.screenIdx]?).getD "undefined"

instance (p : Page) : Decidable (labelMatches p) :=
  inferInstanceAs (Decidable (p.screenLbl = _))

/-! ## Concrete inputs -/

/-- A configuration document as the device serves it. -/
def sampleConfig : RuntimeConfig :=
  { sampleMs := .finite false 300 0
    screenMs := .finite false 4000 0
    autoswitchScreens := true
    screenIdx := 0
    wifi := [{ ssid := .str "home", pass := .str "secret" },
             { ssid := .str "guest", pass := .str "" },
             { ssid := .str "phone", pass := .null }]
    log := { shortMs := .finite false 5000 0, longMs := .finite false 300000 0,
             postUrl := .str "", insecureTls := false }
    buttons := [{ pin := 0, switchScreen := true, url := .str "" },
                { pin := 35, switchScreen := false, url := .str "http://example.com/on" }] }

/-- The settings page after loading `sampleConfig` and typing `5` into SAMPLE_MS. -/
def pageWithSmallSample : Page :=
  run (load sampleConfig) [.typeSampleMs (.numeral (.finite false 5 0))]

/-- A non-2xx answer to the config POST whose body names the offending field. -/
def rejectedResponse : Response RuntimeConfig :=
  { ok := false, text := "screenIdx out of range", json := .error (newError "no JSON") }

/-- A 2xx answer to the reconnect POST with an address. -/
def reconnectedResponse : Response ReconnectResult :=
  { ok := true, text := "", json := .ok { ok := true, ip := .str "192.168.1.20" } }

/-! ## Lemmas on lists -/

theorem set_set_perm {α : Type} [DecidableEq α] (l : List α) (i j : Nat)
    (hi : i < l.length) (hj : j < l.length) :
    ((l.set i l[j]).set j l[i]).Perm l := by
  rw [List.perm_iff_count]
  intro b
  have hj1 : j < (l.set i l[j]).length := by simpa using hj
  rw [List.count_set _ _ _ _ hj1, List.count_set _ _ _ _ hi]
  have e : (l.set i l[j])[j] = l[j] := by
    rw [List.getElem_set]
    split <;> rfl
  rw [e]
  have hc : (l[i] == b) = true → 0 < l.count b := by
    intro h
    have hb : l[i] = b := by simpa using h
    exact List.count_pos_iff.mpr (hb ▸ List.getElem_mem hi)
  cases h1 : (l[i] == b) <;> cases h2 : (l[j] == b) <;>
    simp only [Bool.false_eq_true, if_true, if_false] <;>
    first
      | omega
      | (have h3 := hc h1; omega)

theorem moveWifi_eq_swap (wifi : List WifiCredential) (i j : Nat) (dir : Int)
    (hi : i < wifi.length) (hj : j < wifi.length) (hij : (i : Int) + dir = j) :
    moveWifi wifi i dir = (wifi.set i wifi[j]).set j wifi[i] := by
  unfold moveWifi
  simp only [hij]
  have h1 : ¬ ((j : Int) < 0 ∨ (j : Int) ≥ (wifi.length : Int)) := by omega
  rw [if_neg h1]
  simp [List.getElem?_eq_getElem hi, List.getElem?_eq_getElem hj]

theorem moveWifi_out_of_range (wifi : List WifiCredential) (i : Nat) (dir : Int)
    (h : (i : Int) + dir < 0 ∨ (wifi.length : Int) ≤ (i : Int) + dir) :
    moveWifi wifi i dir = wifi := by
  unfold moveWifi
  simp only []
  rw [if_pos (by omega)]

theorem moveWifi_perm (wifi : List WifiCredential) (i : Nat) (dir : Int)
    (hi : i < wifi.length) : (moveWifi wifi i dir).Perm wifi := by
  by_cases h : (i : Int) + dir < 0 ∨ (wifi.length : Int) ≤ (i : Int) + dir
  · rw [moveWifi_out_of_range wifi i dir h]
  · have hj : ((i : Int) + dir).toNat < wifi.length := by omega
    rw [moveWifi_eq_swap wifi i _ dir hi hj (by omega)]
    exact set_set_perm wifi i _ hi hj

/-- Claim C5: for a row index `i` of the WiFi list and `dir` of `-1` or `1`, when
`j = i + dir` is a row too, `moveWifi(i,dir)` puts the credential of `j` at `i`
and the credential of `i` at `j`, keeps the length and every other position;
when `i + dir` is below `0` or not below the length, the list is unchanged. -/
theorem moveWifi_exchanges (wifi : List WifiCredential) (i : Nat) (dir : Int)
    (hi : i < wifi.length) (hdir : dir = -1 ∨ dir = 1) :
    (∀ j : Nat, (i : Int) + dir = j → j < wifi.length →
      (moveWifi wifi i dir).length = wifi.length ∧
      (moveWifi wifi i dir)[i]? = wifi[j]? ∧
      (moveWifi wifi i dir)[j]? = wifi[i]? ∧
      ∀ k : Nat, k ≠ i → k ≠ j → (moveWifi wifi i dir)[k]? = wifi[k]?) ∧
    ((i : Int) + dir < 0 ∨ (wifi.length : Int) ≤ (i : Int) + dir →
      moveWifi wifi i dir = wifi) := by
  refine ⟨?_, moveWifi_out_of_range wifi i dir⟩
  intro j hij hj
  have hne : i ≠ j := by omega
  rw [moveWifi_eq_swap wifi i j dir hi hj hij]
  refine ⟨by simp, ?_, ?_, ?_⟩
  · rw [List.getElem?_set_ne (Ne.symm hne), List.getElem?_set_self hi,
      List.getElem?_eq_getElem hj]
  · rw [List.getElem?_set_self (by simpa using hj), List.getElem?_eq_getElem hi]
  · intro k hki hkj
    rw [List.getElem?_set_ne (Ne.symm hkj), List.getElem?_set_ne (Ne.symm hki)]

/-- Claim C8: after any finite sequence of `moveWifi(i,dir)` calls, each with `i`
a row of the current list and `dir` of `-1` or `1`, the list is a permutation
of the original: same length, and every credential occurs as often as before. -/
theorem applyMoves_perm (wifi : List WifiCredential) (ms : List Move)
    (h : validMoves wifi ms = true) :
    (applyMoves wifi ms).Perm wifi ∧ (applyMoves wifi ms).length = wifi.length ∧
      ∀ w : WifiCredential, (applyMoves wifi ms).count w = wifi.count w := by
  have key : (applyMoves wifi ms).Perm wifi := by
    induction ms generalizing wifi with
    | nil => exact List.Perm.refl _
    | cons m ms ih =>
      simp only [validMoves, Bool.and_eq_true, decide_eq_true_eq] at h
      obtain ⟨⟨hi, _⟩, hrest⟩ := h
      exact (ih _ hrest).trans (moveWifi_perm wifi m.i m.dir hi)
  exact ⟨key, key.length_eq, fun w => key.count_eq w⟩

/-- Claim C9: for a row index `i`, `delWifi(i)` removes exactly the entry at `i`:
the length drops by one, positions below `i` keep their entry, position `k ≥ i`
receives the entry of `k + 1`, and the remaining entries keep their relative
order (the result is the list with index `i` erased, a sublist of the original). -/
theorem delWifi_removes (wifi : List WifiCredential) (i : Nat) (hi : i < wifi.length) :
    (delWifi wifi i).length + 1 = wifi.length ∧
    (∀ k : Nat, k < i → (delWifi wifi i)[k]? = wifi[k]?) ∧
    (∀ k : Nat, i ≤ k → (delWifi wifi i)[k]? = wifi[k + 1]?) ∧
    delWifi wifi i = wifi.eraseIdx i ∧
    (delWifi wifi i).Sublist wifi := by
  have e : delWifi wifi i = wifi.eraseIdx i := by
    unfold delWifi splice
    rw [List.eraseIdx_eq_take_drop_succ]
  rw [e]
  refine ⟨?_, ?_, ?_, rfl, List.eraseIdx_sublist wifi i⟩
  · rw [List.length_eraseIdx_of_lt hi]; omega
  · intro k hk
    exact List.getElem?_eraseIdx_of_lt wifi i k hk
  · intro k hk
    exact List.getElem?_eraseIdx_of_ge wifi i k hk



theorem map_pin_set (bs : List ButtonConfig) (i : Nat) (b b1 : ButtonConfig)
    (hb : bs[i]? = some b) (hp : b1.pin = b.pin) :
    (bs.set i b1).map ButtonConfig.pin = bs.map ButtonConfig.pin := by
  induction bs generalizing i with
  | nil => rfl
  | cons a as ih =>
    cases i with
    | zero =>
      simp only [List.getElem?_cons_zero, Option.some.injEq] at hb
      simp [hp, hb]
    | succ n =>
      simp only [List.getElem?_cons_succ] at hb
      simp [ih n hb]

theorem pins_step (p : Page) (op : Op) : pins (step p op).cfg = pins p.cfg := by
  cases op with
  | editSwitchScreen i b =>
    simp only [step, pins, editSwitchScreen]
    split
    · next b0 hb => exact map_pin_set _ i b0 _ hb rfl
    · rfl
  | editUrl i v =>
    simp only [step, pins, editUrl]
    split
    · next b0 hb => exact map_pin_set _ i b0 _ hb rfl
    · rfl
  | save f =>
    simp only [step, save, pins]
    cases postJSON f <;> rfl
  | reconnect f =>
    simp only [step, reconnect, pins]
    cases postJSON f <;> rfl
  | _ => rfl

theorem pins_run (p : Page) (ops : List Op) : pins (run p ops).cfg = pins p.cfg := by
  induction ops generalizing p with
  | nil => rfl
  | cons op ops ih =>
    show pins (run (step p op) ops).cfg = pins p.cfg
    rw [ih, pins_step]

/-- Claim C1: for every loaded config and every sequence of settings-page actions,
the pins of the buttons of `cfg`, and of the document that `save()` posts, are
the pins received from `GET /api/config`, in the same number and order. -/
theorem button_pins_fixed (c : RuntimeConfig) (ops : List Op) :
    pins (run (load c) ops).cfg = pins c ∧
    pins (saveAssign (run (load c) ops)) = pins c ∧
    (saveAssign (run (load c) ops)).buttons.length = c.buttons.length ∧
    ∀ k : Nat, ((saveAssign (run (load c) ops)).buttons[k]?).map ButtonConfig.pin =
      (c.buttons[k]?).map ButtonConfig.pin := by
  have h1 : pins (run (load c) ops).cfg = pins c := by
    rw [pins_run]; rfl
  have h2 : pins (saveAssign (run (load c) ops)) = pins c := h1
  refine ⟨h1, h2, ?_, ?_⟩
  · have := congrArg List.length h2
    simpa [pins] using this
  · intro k
    have := congrArg (fun l : List Int => l[k]?) h2
    simpa [pins, List.getElem?_map] using this



theorem screen_step (p : Page) (op : Op) (h : p.cfg.screenIdx < 3 ∧ labelMatches p) :
    (step p op).cfg.screenIdx < 3 ∧ labelMatches (step p op) := by
  cases op with
  | chip ch => cases ch <;> exact ⟨by simp [step, setScreen, Chip.arg], rfl⟩
  | save f =>
    simp only [step, save, labelMatches]
    cases postJSON f <;> exact h
  | reconnect f =>
    simp only [step, reconnect, labelMatches]
    cases postJSON f <;> exact h
  | _ => exact h

theorem screen_run (p : Page) (ops : List Op) (h : p.cfg.screenIdx < 3 ∧ labelMatches p) :
    (run p ops).cfg.screenIdx < 3 ∧ labelMatches (run p ops) := by
  induction ops generalizing p with
  | nil => exact h
  | cons op ops ih => exact ih (step p op) (screen_step p op h)

/-- Claim C4: for a config loaded with `screenIdx` in `0..2` and every sequence of
settings-page actions, `cfg.screenIdx` stays in `0..2` and the label names the
screen of `cfg.screenIdx`; each chip sets `screenIdx` to its own index (0 for
Temp, 1 for Hum, 2 for Pres) and the label to its own name. -/
theorem screenIdx_stays_valid (c : RuntimeConfig) (ops : List Op) (h : c.screenIdx < 3) :
    (run (load c) ops).cfg.screenIdx < 3 ∧
    labelMatches (run (load c) ops) ∧
    (∀ ch : Chip,
      (step (run (load c) ops) (.chip ch)).cfg.screenIdx = ch.arg ∧
      (step (run (load c) ops) (.chip ch)).screenLbl = " aktuell: " ++ ch.text) ∧
    (Chip.temp.arg = 0 ∧ Chip.temp.text = "Temp") ∧
    (Chip.hum.arg = 1 ∧ Chip.hum.text = "Hum") ∧
    (Chip.pres.arg = 2 ∧ Chip.pres.text = "Pres") := by
  have h0 : (load c).cfg.screenIdx < 3 ∧ labelMatches (load c) := ⟨h, rfl⟩
  obtain ⟨h1, h2⟩ := screen_run (load c) ops h0
  refine ⟨h1, h2, ?_, ⟨rfl, rfl⟩, ⟨rfl, rfl⟩, ⟨rfl, rfl⟩⟩
  intro ch
  cases ch <;> exact ⟨rfl, rfl⟩

/-- Claim C2, amended: the document that `save()` posts is `cfg` after its
assignments, whatever the device answers, and carries, for each of the four
numeric fields, the number `Number(value)` that the field's text converts
to, or the default (300, 4000, 5000, 300000) when the field is empty; so the
minimum of a field (100, 500, 250, 1000) holds in the posted document exactly
when the field is empty or its text converts to a finite number that is at
least the minimum. -/
theorem saveAssign_minimums (p : Page) :
    (∀ f : Fetched RuntimeConfig, (save p f).cfg = saveAssign p) ∧
    ((saveAssign p).sampleMs = p.form.sampleMs.numberOr 300 ∧
      (saveAssign p).screenMs = p.form.screenMs.numberOr 4000 ∧
      (saveAssign p).log.shortMs = p.form.logShortMs.numberOr 5000 ∧
      (saveAssign p).log.longMs = p.form.logLongMs.numberOr 300000) ∧
    (jsonAtLeast (saveAssign p).sampleMs 100 = true ↔
      p.form.sampleMs = .empty ∨
        ∃ x, p.form.sampleMs = .numeral x ∧ jsonAtLeast x 100 = true) ∧
    (jsonAtLeast (saveAssign p).screenMs 500 = true ↔
      p.form.screenMs = .empty ∨
        ∃ x, p.form.screenMs = .numeral x ∧ jsonAtLeast x 500 = true) ∧
    (jsonAtLeast (saveAssign p).log.shortMs 250 = true ↔
      p.form.logShortMs = .empty ∨
        ∃ x, p.form.logShortMs = .numeral x ∧ jsonAtLeast x 250 = true) ∧
    (jsonAtLeast (saveAssign p).log.longMs 1000 = true ↔
      p.form.logLongMs = .empty ∨
        ∃ x, p.form.logLongMs = .numeral x ∧ jsonAtLeast x 1000 = true) := by
  refine ⟨?_, ⟨rfl, rfl, rfl, rfl⟩, ?_, ?_, ?_, ?_⟩
  · intro f
    simp only [save]
    cases postJSON f <;> rfl
  · show jsonAtLeast (p.form.sampleMs.numberOr 300) 100 = true ↔ _
    cases p.form.sampleMs with
    | empty => exact ⟨fun _ => Or.inl rfl, fun _ => by decide⟩
    | numeral x => simp [NumInput.numberOr]
  · show jsonAtLeast (p.form.screenMs.numberOr 4000) 500 = true ↔ _
    cases p.form.screenMs with
    | empty => exact ⟨fun _ => Or.inl rfl, fun _ => by decide⟩
    | numeral x => simp [NumInput.numberOr]
  · show jsonAtLeast (p.form.logShortMs.numberOr 5000) 250 = true ↔ _
    cases p.form.logShortMs with
    | empty => exact ⟨fun _ => Or.inl rfl, fun _ => by decide⟩
    | numeral x => simp [NumInput.numberOr]
  · show jsonAtLeast (p.form.logLongMs.numberOr 300000) 1000 = true ↔ _
    cases p.form.logLongMs with
    | empty => exact ⟨fun _ => Or.inl rfl, fun _ => by decide⟩
    | numeral x => simp [NumInput.numberOr]

theorem fehler_ne_saved (s : String) : "Fehler: " ++ s ≠ savedMsg := by
  intro h
  have h1 := congrArg String.data h
  simp [savedMsg, String.data_append] at h1

/-- Claim C3: when the response to the config POST is not ok, `save()` shows
`"Fehler: "` followed by the text of the `Error` whose message is the response
body (`"Fehler: Error: "` and the body, for a non-empty body) and not the
success message; the success message is shown only for an ok response. -/
theorem save_reports_rejection (p : Page) (r : Response RuntimeConfig) :
    (r.ok = false →
      (save p (.ok r)).msg = "Fehler: " ++ (newError r.text).toString ∧
      (newError r.text).message = r.text ∧
      (r.text ≠ "" → (save p (.ok r)).msg = "Fehler: Error: " ++ r.text) ∧
      (save p (.ok r)).msg ≠ savedMsg) ∧
    ((save p (.ok r)).msg = savedMsg → r.ok = true) := by
  have hrej : r.ok = false → (save p (.ok r)).msg = "Fehler: " ++ (newError r.text).toString := by
    intro h
    simp [save, postJSON, h, setMsg]
  refine ⟨fun h => ⟨hrej h, rfl, ?_, ?_⟩, ?_⟩
  · intro ht
    rw [hrej h]
    have e : (newError r.text).toString = "Error: " ++ r.text := by
      simp [newError, JsError.toString, ht]
    rw [e, ← String.append_assoc]
    rfl
  · rw [hrej h]
    exact fehler_ne_saved _
  · intro hm
    cases hok : r.ok with
    | true => rfl
    | false =>
      rw [hrej hok] at hm
      exact absurd hm (fehler_ne_saved _)

/-- Claim C7: for an ok response whose JSON is `res`, `reconnect()` shows `"FAIL"`
when `res.ok` is false whatever `res.ip` is, `"OK: "` and the address when
`res.ok` is true and `res.ip` is a non-empty string, and `"OK: -"` when `res.ok`
is true and `res.ip` is absent, `null` or empty. -/
theorem reconnect_message (p : Page) (r : Response ReconnectResult) (res : ReconnectResult)
    (hok : r.ok = true) (hjson : r.json = .ok res) :
    (res.ok = false → (reconnect p (.ok r)).msg = "FAIL") ∧
    (res.ok = true → ∀ s : String, res.ip = .str s → s ≠ "" →
      (reconnect p (.ok r)).msg = "OK: " ++ s) ∧
    (res.ok = true → (res.ip = .undefined ∨ res.ip = .null ∨ res.ip = .str "") →
      (reconnect p (.ok r)).msg = "OK: -") := by
  have hmsg : (reconnect p (.ok r)).msg =
      if res.ok then "OK: " ++ res.ip.orElse "-" else "FAIL" := by
    simp [reconnect, postJSON, hok, hjson, setMsg]
  refine ⟨?_, ?_, ?_⟩
  · intro h
    rw [hmsg]; simp [h]
  · intro h s hs hne
    rw [hmsg]; simp [h, hs, JsStr.orElse, hne]
  · intro h hip
    rw [hmsg]
    rcases hip with hip | hip | hip <;> simp [h, hip, JsStr.orElse]

theorem flatMap_quote_free (cs : List Char) :
    '"' ∉ cs.flatMap (fun c => if c = '"' then "&quot;".data else [c]) := by
  induction cs with
  | nil => simp
  | cons c cs ih =>
    rw [List.flatMap_cons, List.mem_append]
    rintro (h | h)
    · by_cases hc : c = '"'
      · rw [if_pos hc] at h
        revert h
        decide
      · rw [if_neg hc] at h
        simp at h
        exact hc h.symm
    · exact ih h

theorem flatMap_no_quote (cs : List Char) (h : '"' ∉ cs) :
    cs.flatMap (fun c => if c = '"' then "&quot;".data else [c]) = cs := by
  induction cs with
  | nil => rfl
  | cons c cs ih =>
    have hc : c ≠ '"' := fun e => h (e ▸ List.mem_cons_self _ _)
    have hcs : '"' ∉ cs := fun e => h (List.mem_cons_of_mem _ e)
    rw [List.flatMap_cons, if_neg hc, ih hcs]
    rfl

/-! ## Lemmas on decimal digits -/

theorem digitChar_isDigit (k : Nat) : (Nat.digitChar (k % 10)).isDigit = true := by
  have h : k % 10 < 10 := Nat.mod_lt _ (by decide)
  generalize k % 10 = r at h
  interval_cases r <;> decide

theorem toDigitsCore_isDigit (fuel n : Nat) (ds : List Char)
    (hds : ∀ c ∈ ds, c.isDigit = true) :
    ∀ c ∈ Nat.toDigitsCore 10 fuel n ds, c.isDigit = true := by
  induction fuel generalizing n ds with
  | zero => simpa [Nat.toDigitsCore] using hds
  | succ fuel ih =>
    have hcons : ∀ c ∈ Nat.digitChar (n % 10) :: ds, c.isDigit = true := by
      intro c hc
      rcases List.mem_cons.mp hc with h | h
      · rw [h]; exact digitChar_isDigit n
      · exact hds c h
    simp only [Nat.toDigitsCore]
    split
    · exact hcons
    · exact ih _ _ hcons

theorem toDigits_isDigit (n : Nat) : ∀ c ∈ Nat.toDigits 10 n, c.isDigit = true :=
  toDigitsCore_isDigit (n + 1) n [] (by simp)

theorem toDigits_length_pos (n : Nat) : 0 < (Nat.toDigits 10 n).length := by
  unfold Nat.toDigits
  simp only [Nat.toDigitsCore]
  split
  · simp
  · rw [Nat.toDigitsCore_lens_eq]
    omega

theorem takeWhile_digits_stop (a b : List Char) (c : Char)
    (ha : ∀ x ∈ a, x.isDigit = true) (hc : c.isDigit = false) :
    (a ++ c :: b).takeWhile Char.isDigit = a ∧
      (a ++ c :: b).dropWhile Char.isDigit = c :: b := by
  induction a with
  | nil => simp [List.takeWhile, List.dropWhile, hc]
  | cons x xs ih =>
    have hx : x.isDigit = true := ha x (List.mem_cons_self _ _)
    have hxs : ∀ y ∈ xs, y.isDigit = true := fun y hy => ha y (List.mem_cons_of_mem _ hy)
    obtain ⟨h1, h2⟩ := ih hxs
    simp [List.takeWhile, List.dropWhile, hx, h1, h2]

theorem takeWhile_digits_all (a : List Char) (ha : ∀ x ∈ a, x.isDigit = true) :
    a.takeWhile Char.isDigit = a ∧ a.dropWhile Char.isDigit = [] := by
  induction a with
  | nil => simp
  | cons x xs ih =>
    have hx : x.isDigit = true := ha x (List.mem_cons_self _ _)
    have hxs : ∀ y ∈ xs, y.isDigit = true := fun y hy => ha y (List.mem_cons_of_mem _ hy)
    obtain ⟨h1, h2⟩ := ih hxs
    simp [List.takeWhile, List.dropWhile, hx, h1, h2]

/-- The digits that `toFixed` writes below `10^21` split into a non-empty run of
digits and, for `f > 0`, a point and exactly `f` digits. -/
theorem fixedDigits_shape (n f : Nat) :
    ∃ a b : List Char, a ≠ [] ∧ (∀ x ∈ a, x.isDigit = true) ∧ (∀ x ∈ b, x.isDigit = true) ∧
      b.length = f ∧
      fixedDigits n f = if f = 0 then a else a ++ '.' :: b := by
  by_cases hf : f = 0
  · subst hf
    refine ⟨Nat.toDigits 10 n, [], ?_, toDigits_isDigit n, by simp, rfl, by simp [fixedDigits]⟩
    exact List.ne_nil_of_length_pos (toDigits_length_pos n)
  · let m := Nat.toDigits 10 n
    let m1 := if m.length ≤ f then List.replicate (f + 1 - m.length) '0' ++ m else m
    have hm1 : ∀ x ∈ m1, x.isDigit = true := by
      intro x hx
      by_cases hl : m.length ≤ f
      · simp only [m1, if_pos hl, List.mem_append, List.mem_replicate] at hx
        rcases hx with ⟨_, h⟩ | h
        · rw [h]; decide
        · exact toDigits_isDigit n x h
      · simp only [m1, if_neg hl] at hx
        exact toDigits_isDigit n x hx
    have hlen : f + 1 ≤ m1.length := by
      by_cases hl : m.length ≤ f
      · simp only [m1, if_pos hl, List.length_append, List.length_replicate]
        omega
      · simp only [m1, if_neg hl]
        omega
    refine ⟨m1.take (m1.length - f), m1.drop (m1.length - f), ?_, ?_, ?_, ?_, ?_⟩
    · apply List.ne_nil_of_length_pos
      rw [List.length_take]
      omega
    · exact fun x hx => hm1 x (List.mem_of_mem_take hx)
    · exact fun x hx => hm1 x (List.mem_of_mem_drop hx)
    · rw [List.length_drop]; omega
    · simp only [fixedDigits, if_neg hf, m1, m]

theorem fixedDigits_isFixedDecimal (n f : Nat) (sign : List Char)
    (hs : sign = ['-'] ∨ sign = []) :
    isFixedDecimal (sign ++ fixedDigits n f) f = true := by
  obtain ⟨a, b, ha, hda, hdb, hlen, he⟩ := fixedDigits_shape n f
  obtain ⟨c, cs, hc⟩ := List.exists_cons_of_ne_nil ha
  have hcd : c.isDigit = true := hda c (hc ▸ List.mem_cons_self _ _)
  have hcne : c ≠ '-' := by
    intro h
    rw [h] at hcd
    exact absurd hcd (by decide)
  have hbody : (match sign ++ fixedDigits n f with
      | '-' :: r => r
      | r => r) = fixedDigits n f := by
    rcases hs with hs | hs
    · subst hs; rfl
    · subst hs
      rw [List.nil_append, he]
      by_cases hf : f = 0
      · simp only [if_pos hf, hc]
        split
        · next r heq => exact absurd (List.cons.inj heq).1 hcne
        · rfl
      · simp only [if_neg hf, hc, List.cons_append]
        split
        · next r heq => exact absurd (List.cons.inj heq).1 hcne
        · rfl
  unfold isFixedDecimal
  simp only [hbody]
  rw [he]
  by_cases hf : f = 0
  · simp only [if_pos hf]
    obtain ⟨h1, h2⟩ := takeWhile_digits_all a hda
    rw [h1, h2]
    simp [ha]
  · simp only [if_neg hf]
    obtain ⟨h1, h2⟩ := takeWhile_digits_stop a b '.' hda (by decide)
    rw [h1, h2]
    simp [ha, hlen, List.all_eq_true]
    exact hdb

theorem ne_dash_of_mem (l : List Char) (c : Char) (hc : c ∈ l) (hne : c ≠ '-') :
    ∀ sign : List Char, sign ++ l ≠ ['-'] := by
  intro sign h
  have : c ∈ sign ++ l := List.mem_append_right _ hc
  rw [h] at this
  simp at this
  exact hne this

theorem fixedDigits_has_digit (n f : Nat) :
    ∃ c ∈ fixedDigits n f, c ≠ '-' := by
  obtain ⟨a, b, ha, hda, _, _, he⟩ := fixedDigits_shape n f
  obtain ⟨c, cs, hc⟩ := List.exists_cons_of_ne_nil ha
  have hca : c ∈ a := hc ▸ List.mem_cons_self _ _
  refine ⟨c, ?_, ?_⟩
  · rw [he]
    split
    · exact hca
    · exact List.mem_append_left _ hca
  · intro h
    have := hda c hca
    rw [h] at this
    exact absurd this (by decide)

theorem expDigits_has_e (s n : Nat) : 'e' ∈ expDigits s n := by
  unfold expDigits
  simp only []
  split <;> simp

theorem toFixed_ne_dash (shortest : Nat → Int → Nat × Nat) (x : JsNumber) (f : Nat) :
    toFixed shortest x f ≠ .ok "-" := by
  intro h
  unfold toFixed at h
  split at h
  · cases h
  · cases x with
    | nan => exact absurd (Except.ok.inj h) (by decide)
    | posInf => exact absurd (Except.ok.inj h) (by decide)
    | negInf => exact absurd (Except.ok.inj h) (by decide)
    | finite neg mant exp =>
      have h1 := congrArg String.data (Except.ok.inj h)
      simp only [] at h1
      by_cases hb : atLeast1e21 mant exp = true
      · rw [if_pos hb] at h1
        exact ne_dash_of_mem _ 'e' (expDigits_has_e _ _) (by decide) _ h1
      · rw [if_neg hb] at h1
        obtain ⟨c, hc, hne⟩ := fixedDigits_has_digit (roundScaled mant exp f) f
        exact ne_dash_of_mem _ c hc hne _ h1

/-- Claim C6, amended: `fmt(v,d)` returns `"-"` exactly when `v` is `null`,
`undefined` or `NaN`, for every `d`; for every other number `v` and `d` in
`0..100` it returns `Number(v).toFixed(d)`, which is never `"-"`; and for a
finite `v` of magnitude below `10^21` that text is a fixed-decimal rendering
with exactly `d` decimals: the sign, then the digits of `|v| * 10^d` rounded to
the nearest integer with the point before the last `d` digits. -/
theorem fmt_placeholder (shortest : Nat → Int → Nat × Nat) (v : JsVal) (d : Nat) :
    (fmt shortest v d = .ok "-" ↔ v = .null ∨ v = .undefined ∨ v = .num .nan) ∧
    (∀ x : JsNumber, v = .num x → x ≠ .nan → d ≤ 100 →
      ∃ s : String, fmt shortest v d = .ok s ∧ toFixed shortest x d = .ok s ∧ s ≠ "-") ∧
    (∀ (neg : Bool) (mant : Nat) (exp : Int), v = .num (.finite neg mant exp) →
      atLeast1e21 mant exp = false → d ≤ 100 →
      ∃ s : String, fmt shortest v d = .ok s ∧ isFixedDecimal s.data d = true ∧
        s.data = (if neg = true ∧ mant ≠ 0 then ['-'] else []) ++
          fixedDigits (roundScaled mant exp d) d) := by
  refine ⟨?_, ?_, ?_⟩
  · cases v with
    | null => simp [fmt]
    | undefined => simp [fmt]
    | num x =>
      by_cases hx : x = .nan
      · simp [fmt, hx]
      · simp only [fmt, if_neg hx]
        constructor
        · intro h; exact absurd h (toFixed_ne_dash shortest x d)
        · rintro (h | h | h)
          · cases h
          · cases h
          · exact absurd (JsVal.num.inj h) hx
  · intro x hv hx hd
    subst hv
    have hfmt : fmt shortest (.num x) d = toFixed shortest x d := by
      simp [fmt, hx]
    have hne := toFixed_ne_dash shortest x d
    cases ht : toFixed shortest x d with
    | error e =>
      exfalso
      unfold toFixed at ht
      rw [if_neg (by omega)] at ht
      cases x <;> simp at ht
    | ok s =>
      refine ⟨s, by rw [hfmt, ht], rfl, ?_⟩
      intro hs
      rw [ht, hs] at hne
      exact hne rfl
  · intro neg mant exp hv hbig hd
    subst hv
    refine ⟨String.mk ((if neg = true ∧ mant ≠ 0 then ['-'] else []) ++
      fixedDigits (roundScaled mant exp d) d), ?_, ?_, rfl⟩
    · simp [fmt, toFixed, hbig, show ¬ (100 < d) by omega]
    · apply fixedDigits_isFixedDecimal
      split
      · exact Or.inl rfl
      · exact Or.inr rfl

/-- Claim C6 fails as stated: for the number `10^21` and two decimals `fmt` returns
`"1e+21"`, and for `Infinity` it returns `"Infinity"`, neither of which is a
fixed-decimal rendering with two decimals; and for `d = 101` it returns nothing
but throws a `RangeError`. -/
theorem fmt_not_always_fixed_decimal :
    (fmt shortestOf1e21 (.num (.finite false (5 ^ 21) 21)) 2 = .ok "1e+21" ∧
      isFixedDecimal "1e+21".data 2 = false) ∧
    (fmt shortestOf1e21 (.num .posInf) 2 = .ok "Infinity" ∧
      isFixedDecimal "Infinity".data 2 = false) ∧
    fmt shortestOf1e21 (.num (.finite false 1 0)) 101 =
      .error { name := "RangeError",
               message := "toFixed() digits argument must be between 0 and 100" } := by
  refine ⟨⟨by rfl, by decide⟩, ⟨by rfl, by decide⟩, by rfl⟩

/-! ## The `value` attributes of the generated HTML -/

theorem scan_over (l rest : List Char) (st st1 : ScanState) (h : seekOver st l = some st1) :
    valueAttrsFrom st (l ++ rest) = valueAttrsFrom st1 rest := by
  induction l generalizing st with
  | nil =>
    simp only [seekOver, Option.some.injEq] at h
    rw [h, List.nil_append]
  | cons c cs ih =>
    cases st with
    | seek k =>
      simp only [seekOver] at h
      rw [List.cons_append, valueAttrsFrom]
      exact ih _ h
    | inside acc => simp [seekOver] at h

theorem seekOver_skip (l : List Char) (h : ∀ c ∈ l, c ≠ 'v') :
    seekOver (.seek 0) l = some (.seek 0) := by
  induction l with
  | nil => rfl
  | cons c cs ih =>
    have hc : c ≠ 'v' := h c (List.mem_cons_self _ _)
    have hcs : ∀ x ∈ cs, x ≠ 'v' := fun x hx => h x (List.mem_cons_of_mem _ hx)
    have h1 : ¬ (valuePat[0]? = some c) := by
      intro e
      have : some 'v' = some c := e
      exact hc (Option.some.inj this).symm
    have h2 : seekStep 0 c = .seek 0 := by
      unfold seekStep
      rw [if_neg h1, if_neg hc]
    rw [seekOver, h2]
    exact ih hcs

theorem scan_skip (l rest : List Char) (h : ∀ c ∈ l, c ≠ 'v') :
    valueAttrsFrom (.seek 0) (l ++ rest) = valueAttrsFrom (.seek 0) rest :=
  scan_over l rest _ _ (seekOver_skip l h)

theorem scan_inside (body acc rest : List Char) (h : '"' ∉ body) :
    valueAttrsFrom (.inside acc) (body ++ '"' :: rest) =
      (acc.reverse ++ body) :: valueAttrsFrom (.seek 0) rest := by
  induction body generalizing acc with
  | nil => simp [valueAttrsFrom]
  | cons c cs ih =>
    have hc : c ≠ '"' := fun e => h (e ▸ List.mem_cons_self _ _)
    have hcs : '"' ∉ cs := fun e => h (List.mem_cons_of_mem _ e)
    rw [List.cons_append, valueAttrsFrom, if_neg hc, ih _ hcs]
    simp

theorem scan_value (body tail rest : List Char) (h : '"' ∉ body) :
    valueAttrsFrom (.inside []) (body ++ (('"' :: tail) ++ rest)) =
      body :: valueAttrsFrom (.seek 0) (tail ++ rest) := by
  rw [List.cons_append, scan_inside body [] _ h]
  rfl

theorem natText_no_v (n : Nat) : ∀ c ∈ (toString n).data, c ≠ 'v' := by
  intro c hc
  have h : c.isDigit = true := toDigits_isDigit n c hc
  intro e
  rw [e] at h
  exact absurd h (by decide)

theorem expDigits_no_v (s n : Nat) : ∀ c ∈ expDigits s n, c ≠ 'v' := by
  have hd : ∀ (k : Nat) (c : Char), c ∈ Nat.toDigits 10 k → c ≠ 'v' := by
    intro k c hc e
    have h := toDigits_isDigit k c hc
    rw [e] at h
    exact absurd h (by decide)
  intro c hc
  unfold expDigits at hc
  simp only [] at hc
  split at hc
  · simp only [List.mem_append, List.mem_cons] at hc
    rcases hc with h | h | h | h
    · exact hd _ _ h
    · rw [h]; decide
    · rw [h]; decide
    · exact hd _ _ h
  · simp only [List.mem_append, List.mem_cons] at hc
    rcases hc with h | h | h | h | h | h
    · exact hd _ _ (List.mem_of_mem_take h)
    · rw [h]; decide
    · exact hd _ _ (List.mem_of_mem_drop h)
    · rw [h]; decide
    · rw [h]; decide
    · exact hd _ _ h

theorem numberText_no_v (shortest : Nat → Int → Nat × Nat) (n : Int) :
    ∀ c ∈ (numberText shortest n).data, c ≠ 'v' := by
  intro c hc
  unfold numberText at hc
  split at hc
  · cases n with
    | ofNat m => exact natText_no_v m c hc
    | negSucc m =>
      have e : (toString (Int.negSucc m)).data = '-' :: (toString (m + 1)).data := rfl
      rw [e] at hc
      rcases List.mem_cons.mp hc with h | h
      · rw [h]; decide
      · exact natText_no_v _ c h
  · simp only [List.mem_append] at hc
    rcases hc with h | h
    · split at h
      · simp only [List.mem_singleton] at h
        rw [h]; decide
      · simp at h
    · exact expDigits_no_v _ _ c h

theorem checked_no_v (b : Bool) :
    ∀ c ∈ (if b = true then "checked" else "").data, c ≠ 'v' := by
  cases b <;> decide

theorem wifiRow_scan (i : Nat) (w : WifiCredential) (rest : List Char) :
    valueAttrsFrom (.seek 0) ((wifiRowHtml i w).data ++ rest) =
      (valueAttr w.ssid).data :: (valueAttr w.pass).data :: valueAttrsFrom (.seek 0) rest := by
  have hq : ∀ s : JsStr, '"' ∉ (valueAttr s).data := fun s => flatMap_quote_free _
  simp only [wifiRowHtml, String.data_append, List.append_assoc]
  refine Eq.trans (scan_over _ _ (.seek 0) _ (by rfl)) ?_
  refine Eq.trans (scan_skip _ _ (natText_no_v _)) ?_
  refine Eq.trans (scan_over _ _ (.seek 0) _ (by rfl)) ?_
  refine Eq.trans (scan_over _ _ (.seek 0) _ (by rfl)) ?_
  refine Eq.trans (scan_value _ _ _ (hq _)) (congrArg _ ?_)
  refine Eq.trans (scan_over _ _ (.seek 0) _ (by rfl)) ?_
  refine Eq.trans (scan_skip _ _ (natText_no_v _)) ?_
  refine Eq.trans (scan_over _ _ (.seek 0) _ (by rfl)) ?_
  refine Eq.trans (scan_over _ _ (.seek 0) _ (by rfl)) ?_
  refine Eq.trans (scan_value _ _ _ (hq _)) (congrArg _ ?_)
  refine Eq.trans (scan_over _ _ (.seek 0) _ (by rfl)) ?_
  refine Eq.trans (scan_skip _ _ (natText_no_v _)) ?_
  refine Eq.trans (scan_over _ _ (.seek 0) _ (by rfl)) ?_
  refine Eq.trans (scan_over _ _ (.seek 0) _ (by rfl)) ?_
  refine Eq.trans (scan_over _ _ (.seek 0) _ (by rfl)) ?_
  refine Eq.trans (scan_skip _ _ (natText_no_v _)) ?_
  refine Eq.trans (scan_over _ _ (.seek 0) _ (by rfl)) ?_
  refine Eq.trans (scan_over _ _ (.seek 0) _ (by rfl)) ?_
  refine Eq.trans (scan_skip _ _ (natText_no_v _)) ?_
  refine Eq.trans (scan_over _ _ (.seek 0) _ (by rfl)) ?_
  refine Eq.trans (scan_over _ _ (.seek 0) _ (by rfl)) ?_
  refine Eq.trans (scan_over _ _ (.seek 0) _ (by rfl)) ?_
  refine Eq.trans (scan_skip _ _ (natText_no_v _)) ?_
  refine Eq.trans (scan_over _ _ (.seek 0) _ (by rfl)) ?_
  exact scan_over _ _ (.seek 0) _ (by rfl)

theorem buttonHtml_scan (shortest : Nat → Int → Nat × Nat) (i : Nat) (b : ButtonConfig)
    (rest : List Char) :
    valueAttrsFrom (.seek 0) ((buttonHtml shortest i b).data ++ rest) =
      (valueAttr b.url).data :: valueAttrsFrom (.seek 0) rest := by
  have hq : ∀ s : JsStr, '"' ∉ (valueAttr s).data := fun s => flatMap_quote_free _
  simp only [buttonHtml, String.data_append, List.append_assoc]
  refine Eq.trans (scan_over _ _ (.seek 0) _ (by rfl)) ?_
  refine Eq.trans (scan_skip _ _ (natText_no_v _)) ?_
  refine Eq.trans (scan_over _ _ (.seek 0) _ (by rfl)) ?_
  refine Eq.trans (scan_skip _ _ (numberText_no_v _ _)) ?_
  refine Eq.trans (scan_over _ _ (.seek 0) _ (by rfl)) ?_
  refine Eq.trans (scan_over _ _ (.seek 0) _ (by rfl)) ?_
  refine Eq.trans (scan_skip _ _ (checked_no_v _)) ?_
  refine Eq.trans (scan_over _ _ (.seek 0) _ (by rfl)) ?_
  refine Eq.trans (scan_skip _ _ (natText_no_v _)) ?_
  refine Eq.trans (scan_over _ _ (.seek 0) _ (by rfl)) ?_
  refine Eq.trans (scan_over _ _ (.seek 0) _ (by rfl)) ?_
  refine Eq.trans (scan_over _ _ (.seek 0) _ (by rfl)) ?_
  refine Eq.trans (scan_value _ _ _ (hq _)) (congrArg _ ?_)
  refine Eq.trans (scan_over _ _ (.seek 0) _ (by rfl)) ?_
  refine Eq.trans (scan_skip _ _ (natText_no_v _)) ?_
  exact scan_over _ _ (.seek 0) _ (by rfl)

theorem wifiRow_attrs (i : Nat) (w : WifiCredential) :
    valueAttrs (wifiRowHtml i w) = [valueAttr w.ssid, valueAttr w.pass] := by
  have h := wifiRow_scan i w []
  rw [List.append_nil] at h
  show (valueAttrsFrom (.seek 0) (wifiRowHtml i w).data).map String.mk = _
  rw [h]
  rfl

theorem button_attrs (shortest : Nat → Int → Nat × Nat) (k : Nat) (b1 : ButtonConfig) :
    valueAttrs (buttonHtml shortest k b1) = [valueAttr b1.url] := by
  have h := buttonHtml_scan shortest k b1 []
  rw [List.append_nil] at h
  show (valueAttrsFrom (.seek 0) (buttonHtml shortest k b1).data).map String.mk = _
  rw [h]
  rfl

theorem renderButtons_attrs (shortest : Nat → Int → Nat × Nat) (buttons : List ButtonConfig) :
    (renderButtons shortest buttons).map valueAttrs =
      buttons.map fun b1 => [valueAttr b1.url] := by
  have key : ∀ (l : List ButtonConfig) (n : Nat),
      ((l.enumFrom n).map fun ib => buttonHtml shortest ib.1 ib.2).map valueAttrs =
        l.map fun b1 => [valueAttr b1.url] := by
    intro l
    induction l with
    | nil => intro n; rfl
    | cons a as ih =>
      intro n
      simp only [List.enumFrom, List.map_cons]
      rw [button_attrs, ih]
  exact key buttons 0

/-- Claim C10: for an array index `i` (below `2^32`) and an array of buttons, the
`value="..."` attributes that a reader finds in the row of `wifiRowHtml` are
the escaped ssid and the escaped password, in this order, and the one in each
box of `renderButtons` is the escaped url, where the escaped
text of `s` is `s` with every `"` replaced by `&quot;` and every other character
copied in order: it holds no double quote, a string without `"` is copied as it
is, and `null`, `undefined` and the empty string give the empty string. -/
theorem valueAttr_has_no_quote (shortest : Nat → Int → Nat × Nat) (i : Nat)
    (w : WifiCredential) (b : ButtonConfig) (buttons : List ButtonConfig) :
    (i < 2 ^ 32 → valueAttrs (wifiRowHtml i w) = [valueAttr w.ssid, valueAttr w.pass]) ∧
    (i < 2 ^ 32 → valueAttrs (buttonHtml shortest i b) = [valueAttr b.url]) ∧
    (buttons.length ≤ 2 ^ 32 →
      (renderButtons shortest buttons).map valueAttrs =
        buttons.map fun b1 => [valueAttr b1.url]) ∧
    ∀ s : JsStr,
      '"' ∉ (valueAttr s).data ∧
      (∀ t : String, s = .str t →
        (valueAttr s).data =
          t.data.flatMap (fun c => if c = '"' then "&quot;".data else [c])) ∧
      (∀ t : String, s = .str t → '"' ∉ t.data → valueAttr s = t) ∧
      (s = .null ∨ s = .undefined ∨ s = .str "" → valueAttr s = "") := by
  refine ⟨fun _ => wifiRow_attrs i w, fun _ => button_attrs shortest i b,
    fun _ => renderButtons_attrs shortest buttons,
    fun s => ⟨flatMap_quote_free _, ?_, ?_, ?_⟩⟩
  · intro t ht
    subst ht
    by_cases he : t = ""
    · subst he; rfl
    · simp [valueAttr, JsStr.orElse, he, replaceAll]
  · intro t ht hq
    subst ht
    by_cases he : t = ""
    · subst he; rfl
    · simp only [valueAttr, JsStr.orElse, he, replaceAll, if_false]
      rw [flatMap_no_quote _ hq]
  · rintro (h | h | h) <;> subst h <;> rfl

/-- Claim C2 fails as stated: with `5` typed into SAMPLE_MS, `save()` posts a
document whose `sampleMs` is the number `5`, below the minimum of `100`. -/
theorem save_posts_below_minimum :
    (saveAssign pageWithSmallSample).sampleMs = .finite false 5 0 ∧
    ¬ (jsonAtLeast (saveAssign pageWithSmallSample).sampleMs 100 = true ∧
       jsonAtLeast (saveAssign pageWithSmallSample).screenMs 500 = true ∧
       jsonAtLeast (saveAssign pageWithSmallSample).log.shortMs 250 = true ∧
       jsonAtLeast (saveAssign pageWithSmallSample).log.longMs 1000 = true) := by
  decide

/-! ## The theorems at concrete inputs -/

theorem button_pins_fixed_witness :
    pins (run (load sampleConfig)
      [.editUrl 1 "http://example.com/off", .editSwitchScreen 0 false, .delWifi 0,
       .save (.ok rejectedResponse)]).cfg = [0, 35] :=
  (button_pins_fixed sampleConfig _).1

theorem saveAssign_minimums_witness :
    (jsonAtLeast (saveAssign (load sampleConfig)).sampleMs 100 = true ↔
      (load sampleConfig).form.sampleMs = .empty ∨
        ∃ x, (load sampleConfig).form.sampleMs = .numeral x ∧ jsonAtLeast x 100 = true) :=
  (saveAssign_minimums (load sampleConfig)).2.2.1

theorem save_reports_rejection_witness :
    (save (load sampleConfig) (.ok rejectedResponse)).msg =
      "Fehler: Error: screenIdx out of range" :=
  ((save_reports_rejection (load sampleConfig) rejectedResponse).1 rfl).2.2.1 (by decide)

theorem screenIdx_stays_valid_witness :
    sampleConfig.screenIdx < 3 ∧
    (run (load sampleConfig) [.chip .pres, .addWifi, .moveWifi 0 1]).cfg.screenIdx < 3 :=
  ⟨by decide, (screenIdx_stays_valid sampleConfig _ (by decide)).1⟩

theorem moveWifi_exchanges_witness :
    (moveWifi sampleConfig.wifi 0 1)[0]? = sampleConfig.wifi[1]? ∧
    (moveWifi sampleConfig.wifi 0 1)[1]? = sampleConfig.wifi[0]? ∧
    moveWifi sampleConfig.wifi 0 (-1) = sampleConfig.wifi :=
  have h := moveWifi_exchanges sampleConfig.wifi 0 1 (by decide) (Or.inr rfl)
  have h0 := moveWifi_exchanges sampleConfig.wifi 0 (-1) (by decide) (Or.inl rfl)
  ⟨(h.1 1 rfl (by decide)).2.1, (h.1 1 rfl (by decide)).2.2.1, h0.2 (Or.inl (by decide))⟩

theorem reconnect_message_witness :
    (reconnect (load sampleConfig) (.ok reconnectedResponse)).msg = "OK: 192.168.1.20" :=
  (reconnect_message (load sampleConfig) reconnectedResponse
    { ok := true, ip := .str "192.168.1.20" } rfl rfl).2.1 rfl "192.168.1.20" rfl (by decide)

theorem applyMoves_perm_witness :
    validMoves sampleConfig.wifi [⟨0, 1⟩, ⟨1, 1⟩, ⟨2, 1⟩, ⟨0, -1⟩] = true ∧
    (applyMoves sampleConfig.wifi [⟨0, 1⟩, ⟨1, 1⟩, ⟨2, 1⟩, ⟨0, -1⟩]).Perm sampleConfig.wifi :=
  ⟨by decide, (applyMoves_perm sampleConfig.wifi _ (by decide)).1⟩

theorem delWifi_removes_witness :
    (delWifi sampleConfig.wifi 1).length + 1 = sampleConfig.wifi.length ∧
    delWifi sampleConfig.wifi 1 = sampleConfig.wifi.eraseIdx 1 :=
  have h := delWifi_removes sampleConfig.wifi 1 (by decide)
  ⟨h.1, h.2.2.2.1⟩

theorem valueAttr_has_no_quote_witness :
    valueAttrs (wifiRowHtml 0 { ssid := .str "my \"net\"", pass := .null }) =
      ["my &quot;net&quot;", ""] ∧
    (renderButtons shortestOf1e21 sampleConfig.buttons).map valueAttrs =
      [[""], ["http://example.com/on"]] :=
  have h := valueAttr_has_no_quote shortestOf1e21 0 { ssid := .str "my \"net\"", pass := .null }
    { pin := 0, switchScreen := false, url := .null } sampleConfig.buttons
  ⟨h.1 (by decide), h.2.2.1 (by decide)⟩

theorem fmt_placeholder_witness :
    fmt shortestOf1e21 (.num (.finite false 43 (-1))) 2 = .ok "21.50" ∧
    ∃ s : String, fmt shortestOf1e21 (.num (.finite false 43 (-1))) 2 = .ok s ∧
      toFixed shortestOf1e21 (.finite false 43 (-1)) 2 = .ok s ∧ s ≠ "-" :=
  ⟨rfl, (fmt_placeholder shortestOf1e21 (.num (.finite false 43 (-1))) 2).2.1
    (.finite false 43 (-1)) rfl (by decide) (by decide)⟩

end WebPages
